import Mathlib

/-!
Verification of the Windfall Linux builder (`build-linux.py`).

The builder is modelled as pure functions over an explicit filesystem
state (`FSState`).  External effects (network, hashing, shell commands,
archive extraction) are supplied by an oracle record `Env`, so each
source function becomes a total Lean function from its inputs and the
oracle to a result and a new state.  Ghost fields (`netOps`, `builtLog`,
`cmdLog`, `sysPhaseStarted`) record observable events (a network
transfer attempt, entry into `build_package`, a command dispatched by
`run_command`, entry into `build_system_packages`) that the claims talk
about.
-/

namespace Windfall

/-- `isStart p s` : the char list `p` is an initial segment of `s`
(models Python `s.startswith(p)` on the underlying characters). -/
def isStart : List Char → List Char → Bool
  | [], _ => true
  | _ :: _, [] => false
  | a :: as, b :: bs => a == b && isStart as bs

/-- `hasSub sub s` : `sub` occurs contiguously inside `s`
(models Python `sub in s`). -/
def hasSub (sub : List Char) : List Char → Bool
  | [] => isStart sub []
  | c :: t => isStart sub (c :: t) || hasSub sub t

/-- `strHasSub s sub` : Python `sub in s` for strings. -/
def strHasSub (s sub : String) : Bool := hasSub sub.data s.data

/-- `strStarts s p` : Python `s.startswith(p)` for strings. -/
def strStarts (s p : String) : Bool := isStart p.data s.data

/-- Split a char list at every `'/'` (models Python `str.split("/")`). -/
def splitSlash : List Char → List (List Char)
  | [] => [[]]
  | c :: t =>
    match splitSlash t with
    | [] => [[]]
    | s :: rest => if c == '/' then [] :: s :: rest else (c :: s) :: rest

/-- Python `url.split("/")[-1]` (used in `build_package`). -/
def splitLast (url : String) : String :=
  String.mk ((splitSlash url.data).getLastD [])

/-- Python `Path(url).name` (used in `download_package`): the last
nonempty `/`-separated segment. -/
def pathName (url : String) : String :=
  String.mk (((splitSlash url.data).filter (fun s => s ≠ [])).getLastD [])

/-- The filesystem / run state visible to the orchestrator.
`sourceFiles` and `sourceDirs` are the plain files and the directories
of the shared source directory (`self.sources_dir`), `sourceDirs` in
`iterdir` order.  The remaining fields are ghost observations:
`netOps` counts network transfer attempts (`urllib.request.urlretrieve`
calls), `builtLog` records the packages handed to `build_package`,
`cmdLog` records the shell commands dispatched by `run_command`, and
`sysPhaseStarted` records that `build_system_packages` was entered. -/
structure FSState where
  sourceFiles : List String
  sourceDirs : List String
  netOps : Nat
  builtLog : List String
  cmdLog : List String
  sysPhaseStarted : Bool
  deriving DecidableEq

/-- A package record as produced by configuration loading.  `Option`
fields model the presence or absence of the corresponding TOML key
(`none` = key absent). -/
structure Package where
  name : String
  version : String
  url : String
  build : Option (List String)
  build_commands : Option (List String)
  hash : Option String
  md5 : Option String
  deriving DecidableEq

/-- The external-effect oracle: `net url` is the downloaded content
(`none` = the transfer raised), `md5 c` is the MD5 hex digest of
content `c`, `runOk c` is whether shell command `c` exits 0, and
`extractDirs a` is the list of top-level directories archive `a`
unpacks into the source directory (`none` = extraction raised or the
format is unsupported). -/
structure Env where
  net : String → Option String
  md5 : String → String
  runOk : String → Bool
  extractDirs : String → Option (List String)

/-- The parts of the loaded configuration the build phases consult. -/
structure Config where
  toolchain_packages : Option (List Package)
  packages : Option (List Package)
  deriving DecidableEq

/-- `LinuxBuilder.download_file` (src/build-linux.py:170-195): attempt
the transfer, then if an expected hash was supplied compare the MD5
digest of the downloaded bytes; on mismatch unlink the destination and
fail; any raised exception is converted into a `false` result. -/
def download_file (env : Env) (url dest : String) (expectedHash : Option String)
    (fs : FSState) : Bool × FSState :=
  let fs1 := { fs with netOps := fs.netOps + 1 }
  match env.net url with
  | none => (false, fs1)
  | some content =>
    let fs2 := { fs1 with
      sourceFiles :=
        if dest ∈ fs1.sourceFiles then fs1.sourceFiles else fs1.sourceFiles ++ [dest] }
    match expectedHash with
    | none => (true, fs2)
    | some h =>
      if env.md5 content = h then (true, fs2)
      else (false, { fs2 with sourceFiles := fs2.sourceFiles.filter (fun f => f != dest) })

/-- `LinuxBuilder.download_package` (src/build-linux.py:205-224): skip
when the file named by the URL's last path segment is already cached,
otherwise download verifying against the package's `hash` field. -/
def download_package (env : Env) (pkg : Package) (fs : FSState) : Bool × FSState :=
  let filename := pathName pkg.url
  if filename ∈ fs.sourceFiles then (true, fs)
  else download_file env pkg.url filename pkg.hash fs

/-- The directory-location logic of `build_package`
(src/build-linux.py:273-292): first the directories whose name contains
both the package name and the version, else fall back to those starting
with the package name; the first element of the chosen list is the
source tree, `none` meaning the build fails. -/
def locateDir (dirs : List String) (n v : String) : Option String :=
  let m1 := dirs.filter (fun d => strHasSub d n && strHasSub d v)
  let m2 := if m1 = [] then dirs.filter (fun d => strStarts d n) else m1
  m2.head?

/-- The spec's wording of tree location: select by name-and-version
substring match, and only if that finds nothing fall back to the
name-is-a-start match. -/
def locateSpec (dirs : List String) (n v : String) : Option String :=
  match dirs.find? (fun d => strHasSub d n && strHasSub d v) with
  | some d => some d
  | none => dirs.find? (fun d => strStarts d n)

/-- The command loop of `build_package` (src/build-linux.py:306-310):
run each build command in order, stopping at (and reporting) the first
failure; every dispatched command is recorded in `cmdLog`. -/
def runCommands (env : Env) : List String → FSState → Bool × FSState
  | [], fs => (true, fs)
  | c :: cs, fs =>
    let fs1 := { fs with cmdLog := fs.cmdLog ++ [c] }
    if env.runOk c then runCommands env cs fs1 else (false, fs1)

/-- The sequence of commands `run_command` actually dispatches for a
given step list: all of them when all succeed, otherwise the successful
ones followed by the first failing one. -/
def cmdTrace (env : Env) : List String → List String
  | [] => []
  | c :: cs => if env.runOk c then c :: cmdTrace env cs else [c]

/-- Ghost log entry for entering `build_package`
(the `Building package: ...` log line, src/build-linux.py:255). -/
def logBuilt (pkg : Package) (fs : FSState) : FSState :=
  { fs with builtLog := fs.builtLog ++ [pkg.name] }

/-- The fetch step of `build_package` (src/build-linux.py:257-263):
skip if the archive named by the URL's last `/`-segment is cached,
otherwise download it verifying against the package's `md5` field. -/
def bpDownload (env : Env) (pkg : Package) (fs : FSState) : Bool × FSState :=
  if splitLast pkg.url ∈ fs.sourceFiles then (true, fs)
  else download_file env pkg.url (splitLast pkg.url) pkg.md5 fs

/-- The pre-extraction cleanup of `build_package`
(src/build-linux.py:266-268): remove the directory named exactly
`{name}-{version}` when it exists. -/
def bpFreshen (pkg : Package) (fs : FSState) : FSState :=
  { fs with sourceDirs :=
      fs.sourceDirs.filter (fun d => d != pkg.name ++ "-" ++ pkg.version) }

/-- The extraction step of `build_package` (src/build-linux.py:270-271):
unpack the archive into the source directory, merging its top-level
directories with the ones already there (`none` = extraction failed). -/
def bpExtract (env : Env) (pkg : Package) (fs : FSState) : Option FSState :=
  match env.extractDirs (splitLast pkg.url) with
  | none => none
  | some nds =>
    some { fs with sourceDirs :=
      fs.sourceDirs ++ nds.filter (fun d => !(fs.sourceDirs.contains d)) }

/-- `LinuxBuilder.build_package` (src/build-linux.py:248-316): fetch the
archive if absent, remove any previous `{name}-{version}` tree, extract,
locate the extracted tree, run the build commands stopping at the first
failure, and on full success remove the located tree. -/
def build_package (env : Env) (pkg : Package) (fs0 : FSState) : Bool × FSState :=
  let r1 := bpDownload env pkg (logBuilt pkg fs0)
  if r1.1 then
    match bpExtract env pkg (bpFreshen pkg r1.2) with
    | none => (false, bpFreshen pkg r1.2)
    | some fsX =>
      match locateDir fsX.sourceDirs pkg.name pkg.version with
      | none => (false, fsX)
      | some sourceDir =>
        let r2 := runCommands env (pkg.build.getD []) fsX
        if r2.1 then
          (true, { r2.2 with sourceDirs := r2.2.sourceDirs.filter (fun d => d != sourceDir) })
        else (false, r2.2)
  else (false, r1.2)

/-- `package["build"] = package.get("build_commands", [])`
(src/build-linux.py:396): the in-place mutation `build_toolchain`
performs on each entry it is about to build. -/
def tcPrep (p : Package) : Package :=
  { p with build := some (p.build_commands.getD []) }

/-- The download loop of `build_toolchain` (src/build-linux.py:378-383):
download every entry, stopping at the first failure. -/
def dlAll (env : Env) : List Package → FSState → Bool × FSState
  | [], fs => (true, fs)
  | p :: ps, fs =>
    let r := download_package env p fs
    if r.1 then dlAll env ps r.2 else (false, r.2)

/-- The build loop of `build_toolchain` (src/build-linux.py:386-402):
skip entries whose `build_commands` key is absent, otherwise overwrite
the entry's `build` field with its `build_commands` value and hand it to
`build_package`, stopping at the first failure.  The returned package
list is the post-loop state of the configuration's list (entries are
mutated in place in the source). -/
def buildLoop (env : Env) : List Package → FSState → Bool × FSState × List Package
  | [], fs => (true, fs, [])
  | p :: ps, fs =>
    match p.build_commands with
    | none =>
      let r := buildLoop env ps fs
      (r.1, r.2.1, p :: r.2.2)
    | some _ =>
      let r := build_package env (tcPrep p) fs
      if r.1 then
        let r2 := buildLoop env ps r.2
        (r2.1, r2.2.1, tcPrep p :: r2.2.2)
      else (false, r.2, tcPrep p :: ps)

/-- `LinuxBuilder.build_toolchain` (src/build-linux.py:368-405): fail
outright when the configured toolchain list is empty or absent, else
download every entry, then run the build loop.  The third component is
the post-phase state of the configuration's package list. -/
def build_toolchain (env : Env) (tp : Option (List Package)) (fs : FSState) :
    Bool × FSState × List Package :=
  let pkgs := tp.getD []
  if pkgs.isEmpty then (false, fs, pkgs)
  else
    let r := dlAll env pkgs fs
    if r.1 then buildLoop env pkgs r.2 else (false, r.2, pkgs)

/-- The package loop of `build_system_packages`
(src/build-linux.py:411-414). -/
def sysLoop (env : Env) : List Package → FSState → Bool × FSState
  | [], fs => (true, fs)
  | p :: ps, fs =>
    let r := build_package env p fs
    if r.1 then sysLoop env ps r.2 else (false, r.2)

/-- `LinuxBuilder.build_system_packages` (src/build-linux.py:407-417);
entering it sets the ghost flag `sysPhaseStarted`. -/
def build_system_packages (env : Env) (pkgs : List Package) (fs : FSState) :
    Bool × FSState :=
  sysLoop env pkgs { fs with sysPhaseStarted := true }

/-- `LinuxBuilder.build` (src/build-linux.py:560-598): a toolchain
failure raises, is caught, and makes the whole run fail without the
system-packages phase ever starting; then a system-packages failure does
the same; the later configuration/bootloader steps do not touch the
modelled state. -/
def build (env : Env) (cfg : Config) (fs : FSState) : Bool × FSState :=
  let rt := build_toolchain env cfg.toolchain_packages fs
  if rt.1 then
    let rs := build_system_packages env (cfg.packages.getD []) rt.2.1
    if rs.1 then (true, rs.2) else (false, rs.2)
  else (false, rt.2.1)

/-! Concrete inputs used by the witnesses and counterexamples below. -/

/-- An oracle whose command `"bad"` fails and whose archive `"a.tar"`
extracts to the single directory `"a-1"`. -/
def envC1 : Env :=
  { net := fun _ => none, md5 := fun _ => "", runOk := fun c => c != "bad",
    extractDirs := fun a => if a = "a.tar" then some ["a-1"] else none }

def pkgC1 : Package :=
  { name := "a", version := "1", url := "u/a.tar", build := some ["bad"],
    build_commands := none, hash := none, md5 := none }

def fsC1 : FSState :=
  { sourceFiles := ["a.tar"], sourceDirs := [], netOps := 0,
    builtLog := [], cmdLog := [], sysPhaseStarted := false }

/-- An oracle whose archive `"w.tar"` extracts to `"w-1"` and whose
commands all succeed. -/
def envC1w : Env :=
  { net := fun _ => none, md5 := fun _ => "", runOk := fun _ => true,
    extractDirs := fun a => if a = "w.tar" then some ["w-1"] else none }

def pkgC1w : Package :=
  { name := "w", version := "1", url := "u/w.tar", build := some ["ok"],
    build_commands := none, hash := none, md5 := none }

def fsC1w : FSState :=
  { sourceFiles := ["w.tar"], sourceDirs := [], netOps := 0,
    builtLog := [], cmdLog := [], sysPhaseStarted := false }

/-- The state of `fsC1w` right after download, freshen and extraction. -/
def fsXC1w : FSState :=
  { sourceFiles := ["w.tar"], sourceDirs := ["w-1"], netOps := 0,
    builtLog := ["w"], cmdLog := [], sysPhaseStarted := false }

def envC2 : Env :=
  { net := fun _ => some "", md5 := fun _ => "", runOk := fun _ => true,
    extractDirs := fun _ => none }

/-- A toolchain entry declared with `build_commands` but no `build` key. -/
def pkgC2 : Package :=
  { name := "a", version := "1", url := "u/a.tar", build := none,
    build_commands := some ["c"], hash := none, md5 := none }

def fsC2 : FSState :=
  { sourceFiles := ["a.tar"], sourceDirs := [], netOps := 0,
    builtLog := [], cmdLog := [], sysPhaseStarted := false }

/-- An oracle whose archive `"foo-1.2.tar"` extracts to `"foo-1.2"`. -/
def envC3 : Env :=
  { net := fun _ => none, md5 := fun _ => "", runOk := fun _ => true,
    extractDirs := fun a => if a = "foo-1.2.tar" then some ["foo-1.2"] else none }

def pkgC3 : Package :=
  { name := "foo", version := "1.2", url := "u/foo-1.2.tar", build := some [],
    build_commands := none, hash := none, md5 := none }

/-- A source directory holding a stale directory `"foo-1.2-stale"` left
over from an earlier, partial extraction. -/
def fsC3 : FSState :=
  { sourceFiles := ["foo-1.2.tar"], sourceDirs := ["foo-1.2-stale"], netOps := 0,
    builtLog := [], cmdLog := [], sysPhaseStarted := false }

/-- The state of `fsC3` after the freshen and extraction steps. -/
def fsXC3w : FSState :=
  { sourceFiles := ["foo-1.2.tar"], sourceDirs := ["foo-1.2-stale", "foo-1.2"], netOps := 0,
    builtLog := [], cmdLog := [], sysPhaseStarted := false }

/-- An oracle whose every network transfer raises. -/
def envC4 : Env :=
  { net := fun _ => none, md5 := fun _ => "", runOk := fun _ => true,
    extractDirs := fun _ => none }

def pkgC4 : Package :=
  { name := "p", version := "1", url := "u/p.tar", build := none,
    build_commands := none, hash := some "h", md5 := none }

def fsC4 : FSState :=
  { sourceFiles := [], sourceDirs := [], netOps := 0,
    builtLog := [], cmdLog := [], sysPhaseStarted := false }

/-- An oracle whose every transfer succeeds with content `"c"`. -/
def envC4w : Env :=
  { net := fun _ => some "c", md5 := fun _ => "", runOk := fun _ => true,
    extractDirs := fun _ => none }

def pkgC4w : Package :=
  { name := "q", version := "1", url := "u/q.tar", build := none,
    build_commands := none, hash := none, md5 := none }

def fsC4w : FSState :=
  { sourceFiles := ["q.tar"], sourceDirs := [], netOps := 0,
    builtLog := [], cmdLog := [], sysPhaseStarted := false }

/-- An oracle downloading content `"data"` whose MD5 digest is `"d1"`. -/
def envC5 : Env :=
  { net := fun _ => some "data", md5 := fun _ => "d1", runOk := fun _ => true,
    extractDirs := fun _ => none }

def envC5n : Env :=
  { net := fun _ => none, md5 := fun _ => "d1", runOk := fun _ => true,
    extractDirs := fun _ => none }

def envC6 : Env :=
  { net := fun _ => none, md5 := fun _ => "", runOk := fun _ => true,
    extractDirs := fun a => if a = "zzz.tar" then some ["other"] else none }

def pkgC6 : Package :=
  { name := "zzz", version := "9", url := "u/zzz.tar", build := none,
    build_commands := none, hash := none, md5 := none }

def fsC6 : FSState :=
  { sourceFiles := ["zzz.tar"], sourceDirs := [], netOps := 0,
    builtLog := [], cmdLog := [], sysPhaseStarted := false }

/-- The state of `fsC6` right after download, freshen and extraction. -/
def fsXC6 : FSState :=
  { sourceFiles := ["zzz.tar"], sourceDirs := ["other"], netOps := 0,
    builtLog := ["zzz"], cmdLog := [], sysPhaseStarted := false }

def envC7 : Env :=
  { net := fun _ => some "", md5 := fun _ => "", runOk := fun _ => true,
    extractDirs := fun _ => none }

/-- A toolchain entry whose `build_commands` key is present but empty. -/
def pkgC7 : Package :=
  { name := "meta", version := "1", url := "u/meta.tar", build := none,
    build_commands := some [], hash := none, md5 := none }

/-- A toolchain entry whose `build_commands` key is absent. -/
def pkgC7n : Package :=
  { name := "dep", version := "1", url := "u/dep.tar", build := none,
    build_commands := none, hash := none, md5 := none }

def fsC7 : FSState :=
  { sourceFiles := ["meta.tar", "dep.tar"], sourceDirs := [], netOps := 0,
    builtLog := [], cmdLog := [], sysPhaseStarted := false }

/-- An oracle for which every extraction fails, so every attempted
package build fails. -/
def envC8 : Env :=
  { net := fun _ => some "c", md5 := fun _ => "", runOk := fun _ => true,
    extractDirs := fun _ => none }

def pkgC8 : Package :=
  { name := "f", version := "1", url := "u/f.tar", build := none,
    build_commands := some ["x"], hash := none, md5 := none }

def fsC8 : FSState :=
  { sourceFiles := ["f.tar"], sourceDirs := [], netOps := 0,
    builtLog := [], cmdLog := [], sysPhaseStarted := false }

def cfgC8 : Config :=
  { toolchain_packages := some [pkgC8], packages := some [] }

def cfgC9 : Config :=
  { toolchain_packages := none, packages := some [pkgC8] }

/-- A package declaring its digest only under `hash`, not `md5`. -/
def pkgC10 : Package :=
  { name := "g", version := "1", url := "u/g.tar", build := none,
    build_commands := none, hash := some "right", md5 := none }

/-- An oracle downloading content whose MD5 digest is `"wrong"`. -/
def envC10 : Env :=
  { net := fun _ => some "bytes", md5 := fun _ => "wrong", runOk := fun _ => true,
    extractDirs := fun _ => none }

lemma head?_filter (p : String → Bool) : ∀ l : List String, (l.filter p).head? = l.find? p
  | [] => rfl
  | a :: t => by
    cases h : p a
    · simp [List.filter_cons, h, head?_filter p t]
    · simp [List.filter_cons, h]

lemma head?_mem {l : List String} {a : String} (h : l.head? = some a) : a ∈ l := by
  cases l with
  | nil => simp at h
  | cons b t => simp at h; simp [h]

lemma locateDir_eq_locateSpec (dirs : List String) (n v : String) :
    locateDir dirs n v = locateSpec dirs n v := by
  simp only [locateDir, locateSpec]
  by_cases h : dirs.filter (fun d => strHasSub d n && strHasSub d v) = []
  · rw [if_pos h]
    have h1 : dirs.find? (fun d => strHasSub d n && strHasSub d v) = none := by
      rw [← head?_filter, h]; rfl
    rw [h1, head?_filter]
  · rw [if_neg h]
    rw [head?_filter]
    have h1 : dirs.find? (fun d => strHasSub d n && strHasSub d v) ≠ none := by
      rw [← head?_filter]
      intro hc
      exact h (by cases hf : dirs.filter (fun d => strHasSub d n && strHasSub d v) with
        | nil => rfl
        | cons a t => rw [hf] at hc; simp at hc)
    cases hf : dirs.find? (fun d => strHasSub d n && strHasSub d v) with
    | none => exact absurd hf h1
    | some d => rfl

lemma locateDir_mem {dirs : List String} {n v d : String}
    (h : locateDir dirs n v = some d) : d ∈ dirs := by
  simp only [locateDir] at h
  by_cases h1 : dirs.filter (fun x => strHasSub x n && strHasSub x v) = []
  · rw [if_pos h1] at h
    exact (List.mem_filter.1 (head?_mem h)).1
  · rw [if_neg h1] at h
    exact (List.mem_filter.1 (head?_mem h)).1

lemma runCommands_eq (env : Env) (cs : List String) :
    ∀ fs : FSState, runCommands env cs fs =
      (cs.all env.runOk, { fs with cmdLog := fs.cmdLog ++ cmdTrace env cs }) := by
  induction cs with
  | nil => intro fs; simp [runCommands, cmdTrace]
  | cons c cs ih =>
    intro fs
    cases h : env.runOk c
    · simp [runCommands, cmdTrace, h]
    · simp [runCommands, cmdTrace, h, ih]

lemma download_file_dirs (env : Env) (url dest : String) (eh : Option String)
    (fs : FSState) : (download_file env url dest eh fs).2.sourceDirs = fs.sourceDirs := by
  simp only [download_file]
  cases env.net url with
  | none => rfl
  | some c =>
    cases eh with
    | none => rfl
    | some h => by_cases hh : env.md5 c = h <;> simp [hh]

lemma download_file_built (env : Env) (url dest : String) (eh : Option String)
    (fs : FSState) : (download_file env url dest eh fs).2.builtLog = fs.builtLog := by
  simp only [download_file]
  cases env.net url with
  | none => rfl
  | some c =>
    cases eh with
    | none => rfl
    | some h => by_cases hh : env.md5 c = h <;> simp [hh]

lemma download_file_cmd (env : Env) (url dest : String) (eh : Option String)
    (fs : FSState) : (download_file env url dest eh fs).2.cmdLog = fs.cmdLog := by
  simp only [download_file]
  cases env.net url with
  | none => rfl
  | some c =>
    cases eh with
    | none => rfl
    | some h => by_cases hh : env.md5 c = h <;> simp [hh]

lemma download_file_sys (env : Env) (url dest : String) (eh : Option String)
    (fs : FSState) :
    (download_file env url dest eh fs).2.sysPhaseStarted = fs.sysPhaseStarted := by
  simp only [download_file]
  cases env.net url with
  | none => rfl
  | some c =>
    cases eh with
    | none => rfl
    | some h => by_cases hh : env.md5 c = h <;> simp [hh]

lemma download_file_netOps (env : Env) (url dest : String) (eh : Option String)
    (fs : FSState) : (download_file env url dest eh fs).2.netOps = fs.netOps + 1 := by
  simp only [download_file]
  cases env.net url with
  | none => rfl
  | some c =>
    cases eh with
    | none => rfl
    | some h => by_cases hh : env.md5 c = h <;> simp [hh]

lemma download_file_success_mem {env : Env} {url dest : String} {eh : Option String}
    {fs : FSState} (h : (download_file env url dest eh fs).1 = true) :
    dest ∈ (download_file env url dest eh fs).2.sourceFiles := by
  revert h
  simp only [download_file]
  cases hn : env.net url with
  | none => intro h; simp at h
  | some c =>
    cases eh with
    | none =>
      intro h
      dsimp only
      by_cases hm : dest ∈ fs.sourceFiles <;> simp [hm]
    | some hx =>
      dsimp only
      by_cases hh : env.md5 c = hx
      · rw [if_pos hh]
        intro h
        by_cases hm : dest ∈ fs.sourceFiles <;> simp [hm]
      · rw [if_neg hh]
        intro h
        simp at h

lemma download_package_sys (env : Env) (pkg : Package) (fs : FSState) :
    (download_package env pkg fs).2.sysPhaseStarted = fs.sysPhaseStarted := by
  simp only [download_package]
  by_cases hm : pathName pkg.url ∈ fs.sourceFiles
  · rw [if_pos hm]
  · rw [if_neg hm]; exact download_file_sys ..

lemma bpExtract_eq {env : Env} {pkg : Package} {fs fsX : FSState}
    (h : bpExtract env pkg fs = some fsX) :
    ∃ nds, env.extractDirs (splitLast pkg.url) = some nds ∧
      fsX = { fs with sourceDirs :=
        fs.sourceDirs ++ nds.filter (fun d => !(fs.sourceDirs.contains d)) } := by
  revert h
  simp only [bpExtract]
  cases he : env.extractDirs (splitLast pkg.url) with
  | none => intro h; exact absurd h (by simp)
  | some nds => intro h; exact ⟨nds, rfl, (Option.some.inj h).symm⟩

lemma build_package_builtLog (env : Env) (pkg : Package) (fs : FSState) :
    (build_package env pkg fs).2.builtLog = fs.builtLog ++ [pkg.name] := by
  simp only [build_package]
  by_cases h1 : (bpDownload env pkg (logBuilt pkg fs)).1
  · rw [if_pos h1]
    have hd : (bpDownload env pkg (logBuilt pkg fs)).2.builtLog = fs.builtLog ++ [pkg.name] := by
      simp only [bpDownload]
      by_cases hm : splitLast pkg.url ∈ (logBuilt pkg fs).sourceFiles
      · rw [if_pos hm]; rfl
      · rw [if_neg hm]; rw [download_file_built]; rfl
    cases he : bpExtract env pkg (bpFreshen pkg (bpDownload env pkg (logBuilt pkg fs)).2) with
    | none => dsimp only; simpa [bpFreshen] using hd
    | some fsX =>
      dsimp only
      obtain ⟨nds, -, hfx⟩ := bpExtract_eq he
      have hX : fsX.builtLog = fs.builtLog ++ [pkg.name] := by
        rw [hfx]; simpa [bpFreshen] using hd
      cases hl : locateDir fsX.sourceDirs pkg.name pkg.version with
      | none => exact hX
      | some sd =>
        dsimp only
        rw [runCommands_eq]
        by_cases hr : (pkg.build.getD []).all env.runOk <;> simp [hr, hX]
  · rw [if_neg h1]
    simp only [bpDownload]
    by_cases hm : splitLast pkg.url ∈ (logBuilt pkg fs).sourceFiles
    · rw [if_pos hm]; rfl
    · rw [if_neg hm]; rw [download_file_built]; rfl

lemma build_package_sys (env : Env) (pkg : Package) (fs : FSState) :
    (build_package env pkg fs).2.sysPhaseStarted = fs.sysPhaseStarted := by
  simp only [build_package]
  by_cases h1 : (bpDownload env pkg (logBuilt pkg fs)).1
  · rw [if_pos h1]
    have hd : (bpDownload env pkg (logBuilt pkg fs)).2.sysPhaseStarted = fs.sysPhaseStarted := by
      simp only [bpDownload]
      by_cases hm : splitLast pkg.url ∈ (logBuilt pkg fs).sourceFiles
      · rw [if_pos hm]; rfl
      · rw [if_neg hm]; rw [download_file_sys]; rfl
    cases he : bpExtract env pkg (bpFreshen pkg (bpDownload env pkg (logBuilt pkg fs)).2) with
    | none => dsimp only; simpa [bpFreshen] using hd
    | some fsX =>
      dsimp only
      obtain ⟨nds, -, hfx⟩ := bpExtract_eq he
      have hX : fsX.sysPhaseStarted = fs.sysPhaseStarted := by
        rw [hfx]; simpa [bpFreshen] using hd
      cases hl : locateDir fsX.sourceDirs pkg.name pkg.version with
      | none => exact hX
      | some sd =>
        dsimp only
        rw [runCommands_eq]
        by_cases hr : (pkg.build.getD []).all env.runOk <;> simp [hr, hX]
  · rw [if_neg h1]
    simp only [bpDownload]
    by_cases hm : splitLast pkg.url ∈ (logBuilt pkg fs).sourceFiles
    · rw [if_pos hm]; rfl
    · rw [if_neg hm]; rw [download_file_sys]; rfl

lemma dlAll_sys (env : Env) : ∀ (l : List Package) (fs : FSState),
    (dlAll env l fs).2.sysPhaseStarted = fs.sysPhaseStarted := by
  intro l
  induction l with
  | nil => intro fs; rfl
  | cons p ps ih =>
    intro fs
    simp only [dlAll]
    by_cases h : (download_package env p fs).1
    · rw [if_pos h, ih, download_package_sys]
    · rw [if_neg h, download_package_sys]

lemma buildLoop_sys (env : Env) : ∀ (l : List Package) (fs : FSState),
    (buildLoop env l fs).2.1.sysPhaseStarted = fs.sysPhaseStarted := by
  intro l
  induction l with
  | nil => intro fs; rfl
  | cons p ps ih =>
    intro fs
    simp only [buildLoop]
    cases p.build_commands with
    | none => exact ih fs
    | some bc =>
      by_cases h : (build_package env (tcPrep p) fs).1
      · rw [if_pos h]; simp only []; rw [ih, build_package_sys]
      · rw [if_neg h]; exact build_package_sys ..

lemma build_toolchain_sys (env : Env) (tp : Option (List Package)) (fs : FSState) :
    (build_toolchain env tp fs).2.1.sysPhaseStarted = fs.sysPhaseStarted := by
  simp only [build_toolchain]
  by_cases he : (tp.getD []).isEmpty
  · rw [if_pos he]
  · rw [if_neg he]
    by_cases hd : (dlAll env (tp.getD []) fs).1
    · rw [if_pos hd, buildLoop_sys, dlAll_sys]
    · rw [if_neg hd, dlAll_sys]

lemma buildLoop_builtLog_mono (env : Env) : ∀ (l : List Package) (fs : FSState),
    ∃ t, (buildLoop env l fs).2.1.builtLog = fs.builtLog ++ t := by
  intro l
  induction l with
  | nil => intro fs; exact ⟨[], by simp [buildLoop]⟩
  | cons p ps ih =>
    intro fs
    simp only [buildLoop]
    cases p.build_commands with
    | none => exact ih fs
    | some bc =>
      by_cases h : (build_package env (tcPrep p) fs).1
      · rw [if_pos h]
        obtain ⟨t, ht⟩ := ih (build_package env (tcPrep p) fs).2
        refine ⟨(tcPrep p).name :: t, ?_⟩
        simp only [ht, build_package_builtLog]
        simp
      · rw [if_neg h]
        exact ⟨[(tcPrep p).name], build_package_builtLog ..⟩

lemma buildLoop_append (env : Env) : ∀ (l1 l2 : List Package) (fs : FSState),
    buildLoop env (l1 ++ l2) fs =
      if (buildLoop env l1 fs).1 then
        ((buildLoop env l2 (buildLoop env l1 fs).2.1).1,
         (buildLoop env l2 (buildLoop env l1 fs).2.1).2.1,
         (buildLoop env l1 fs).2.2 ++ (buildLoop env l2 (buildLoop env l1 fs).2.1).2.2)
      else ((buildLoop env l1 fs).1, (buildLoop env l1 fs).2.1,
            (buildLoop env l1 fs).2.2 ++ l2) := by
  intro l1
  induction l1 with
  | nil => intro l2 fs; simp [buildLoop]
  | cons p ps ih =>
    intro l2 fs
    simp only [List.cons_append, buildLoop]
    cases hbc : p.build_commands with
    | none =>
      dsimp only
      rw [show List.append ps l2 = ps ++ l2 from rfl]
      rw [ih]
      by_cases h : (buildLoop env ps fs).1
      · rw [if_pos h, if_pos h]; simp
      · rw [if_neg h, if_neg h]; simp
    | some bc =>
      dsimp only
      by_cases h : (build_package env (tcPrep p) fs).1
      · rw [if_pos h, if_pos h]
        rw [show List.append ps l2 = ps ++ l2 from rfl]
        rw [ih]
        by_cases h2 : (buildLoop env ps (build_package env (tcPrep p) fs).2).1
        · rw [if_pos h2, if_pos h2]; simp
        · rw [if_neg h2, if_neg h2]; simp
      · rw [if_neg h, if_neg h]
        simp [h]

lemma buildLoop_forall₂ (env : Env) : ∀ (l : List Package) (fs : FSState),
    List.Forall₂ (fun p q => q = p ∨ q = tcPrep p) l (buildLoop env l fs).2.2 := by
  intro l
  induction l with
  | nil => intro fs; simp [buildLoop]
  | cons p ps ih =>
    intro fs
    simp only [buildLoop]
    cases hbc : p.build_commands with
    | none => exact List.Forall₂.cons (Or.inl rfl) (ih fs)
    | some bc =>
      dsimp only
      by_cases h : (build_package env (tcPrep p) fs).1
      · rw [if_pos h]
        exact List.Forall₂.cons (Or.inr rfl) (ih _)
      · rw [if_neg h]
        exact List.Forall₂.cons (Or.inr rfl) (List.forall₂_same.2 (fun x _ => Or.inl rfl))

lemma download_package_netOps_le (env : Env) (pkg : Package) (fs : FSState) :
    (download_package env pkg fs).2.netOps ≤ fs.netOps + 1 := by
  simp only [download_package]
  by_cases hm : pathName pkg.url ∈ fs.sourceFiles
  · rw [if_pos hm]; exact Nat.le_succ _
  · rw [if_neg hm]; rw [download_file_netOps]

/-- Claim C1, counterexample: for the package `pkgC1` whose single build
command fails, `build_package` reports failure but the located extracted
tree `"a-1"` is still present in the source directory when it returns —
the cleanup is NOT performed on the failing exit path that follows tree
location. -/
theorem C1_cex :
    (build_package envC1 pkgC1 fsC1).1 = false ∧
    "a-1" ∈ (build_package envC1 pkgC1 fsC1).2.sourceDirs ∧
    locateDir ["a-1"] pkgC1.name pkgC1.version = some "a-1" := by decide

/-- Claim C1, amended: once the extracted tree is located, if every
build command succeeds the package build reports success and the located
tree is removed before returning; if some build command fails, the
remaining commands are skipped (`cmdLog` extends by exactly the
dispatched prefix `cmdTrace`) and the package build reports failure, but
the located tree is NOT removed. -/
theorem C1_cleanup_only_on_success :
    ∀ (env : Env) (pkg : Package) (fs fsX : FSState) (sd : String),
    (bpDownload env pkg (logBuilt pkg fs)).1 = true →
    bpExtract env pkg (bpFreshen pkg (bpDownload env pkg (logBuilt pkg fs)).2) = some fsX →
    locateDir fsX.sourceDirs pkg.name pkg.version = some sd →
    (((pkg.build.getD []).all env.runOk = true →
        (build_package env pkg fs).1 = true ∧
        sd ∉ (build_package env pkg fs).2.sourceDirs) ∧
     ((pkg.build.getD []).all env.runOk = false →
        (build_package env pkg fs).1 = false ∧
        sd ∈ (build_package env pkg fs).2.sourceDirs) ∧
     (build_package env pkg fs).2.cmdLog = fsX.cmdLog ++ cmdTrace env (pkg.build.getD [])) := by
  intro env pkg fs fsX sd h1 h2 h3
  have hb : build_package env pkg fs =
      if (pkg.build.getD []).all env.runOk then
        (true, { fsX with
          cmdLog := fsX.cmdLog ++ cmdTrace env (pkg.build.getD []),
          sourceDirs := fsX.sourceDirs.filter (fun d => d != sd) })
      else
        (false, { fsX with cmdLog := fsX.cmdLog ++ cmdTrace env (pkg.build.getD []) }) := by
    simp only [build_package]
    rw [if_pos h1, h2]
    dsimp only
    rw [h3]
    dsimp only
    rw [runCommands_eq]
  by_cases hr : (pkg.build.getD []).all env.runOk
  · rw [hb, if_pos hr]
    refine ⟨fun _ => ⟨rfl, by simp⟩, fun hc => absurd hr (by simp [hc]), rfl⟩
  · have hr' : (pkg.build.getD []).all env.runOk = false := by
      revert hr; cases (pkg.build.getD []).all env.runOk <;> simp
    rw [hb, if_neg hr]
    exact ⟨fun hc => absurd hc (by simp [hr']), fun _ => ⟨rfl, locateDir_mem h3⟩, rfl⟩

/-- Witness for C1: a concrete all-commands-succeed build where the
located tree `"w-1"` is removed, with the full command trace logged. -/
theorem C1_witness :
    ((build_package envC1w pkgC1w fsC1w).1 = true ∧
      "w-1" ∉ (build_package envC1w pkgC1w fsC1w).2.sourceDirs) ∧
    (build_package envC1w pkgC1w fsC1w).2.cmdLog =
      fsXC1w.cmdLog ++ cmdTrace envC1w (pkgC1w.build.getD []) := by
  have h := C1_cleanup_only_on_success envC1w pkgC1w fsC1w fsXC1w "w-1"
    (by decide) (by decide) (by decide)
  exact ⟨h.1 (by decide), h.2.2⟩

/-- Claim C2, counterexample: `build_toolchain` mutates the package
record: an entry declared with `build_commands = ["c"]` and no `build`
key comes out of the toolchain phase with its `build` field overwritten,
so the record no longer equals what configuration loading produced. -/
theorem C2_cex :
    (build_toolchain envC2 (some [pkgC2]) fsC2).2.2 = [{ pkgC2 with build := some ["c"] }] ∧
    (build_toolchain envC2 (some [pkgC2]) fsC2).2.2 ≠ [pkgC2] := by decide

/-- Claim C2, amended: after `build_toolchain`, each package record in
the configuration's list is either unchanged or differs from the loaded
record exactly by its `build` field having been overwritten with the
record's `build_commands` value (no other field is ever mutated;
`build_package` and `build_system_packages` take the records purely). -/
theorem C2_package_mutation :
    ∀ (env : Env) (tp : Option (List Package)) (fs : FSState),
    List.Forall₂ (fun p q => q = p ∨ q = tcPrep p) (tp.getD [])
      (build_toolchain env tp fs).2.2 := by
  intro env tp fs
  simp only [build_toolchain]
  by_cases he : (tp.getD []).isEmpty
  · rw [if_pos he]
    exact List.forall₂_same.2 (fun x _ => Or.inl rfl)
  · rw [if_neg he]
    by_cases hd : (dlAll env (tp.getD []) fs).1
    · rw [if_pos hd]
      exact buildLoop_forall₂ env _ _
    · rw [if_neg hd]
      exact List.forall₂_same.2 (fun x _ => Or.inl rfl)

/-- Claim C3, counterexample: for package (foo, 1.2) with a stale
directory `"foo-1.2-stale"` present before the build, the stale
directory is not removed (only `"foo-1.2"` would be), it is the one
selected by tree location ahead of the freshly extracted `"foo-1.2"`,
and the build consumes it — the freshly extracted tree survives while
the stale one was used and cleaned up. -/
theorem C3_cex :
    "foo-1.2-stale" ∈ fsC3.sourceDirs ∧
    locateDir ["foo-1.2-stale", "foo-1.2"] pkgC3.name pkgC3.version = some "foo-1.2-stale" ∧
    (build_package envC3 pkgC3 fsC3).1 = true ∧
    (build_package envC3 pkgC3 fsC3).2.sourceDirs = ["foo-1.2"] := by decide

/-- Claim C3, amended: before extraction, exactly the directory named
`{name}-{version}` is removed: after the freshen step that directory is
absent, and at location time it is present iff this build's own
extraction (re)created it; a previously extracted tree under any other
name survives and (per `C3_cex`) can be located and reused. -/
theorem C3_fresh_extract :
    ∀ (env : Env) (pkg : Package) (fs fsX : FSState) (nds : List String),
    env.extractDirs (splitLast pkg.url) = some nds →
    bpExtract env pkg (bpFreshen pkg fs) = some fsX →
    (((pkg.name ++ "-" ++ pkg.version) ∈ fsX.sourceDirs ↔
        (pkg.name ++ "-" ++ pkg.version) ∈ nds) ∧
     (pkg.name ++ "-" ++ pkg.version) ∉ (bpFreshen pkg fs).sourceDirs) := by
  intro env pkg fs fsX nds h1 h2
  obtain ⟨nds', he, hfx⟩ := bpExtract_eq h2
  rw [h1] at he
  have hnds : nds' = nds := (Option.some.inj he).symm
  subst hnds
  have hnot : (pkg.name ++ "-" ++ pkg.version) ∉ (bpFreshen pkg fs).sourceDirs := by
    simp [bpFreshen]
  refine ⟨?_, hnot⟩
  rw [hfx]
  dsimp only
  constructor
  · intro hm
    rcases List.mem_append.1 hm with hl | hr
    · exact absurd hl hnot
    · exact (List.mem_filter.1 hr).1
  · intro hm
    refine List.mem_append.2 (Or.inr (List.mem_filter.2 ⟨hm, ?_⟩))
    simpa using hnot

/-- Witness for C3 at the concrete (foo, 1.2) build of `C3_cex`. -/
theorem C3_witness :
    (("foo" ++ "-" ++ "1.2") ∈ fsXC3w.sourceDirs ↔ ("foo" ++ "-" ++ "1.2") ∈ ["foo-1.2"]) ∧
    ("foo" ++ "-" ++ "1.2") ∉ (bpFreshen pkgC3 fsC3).sourceDirs := by
  have h := C3_fresh_extract envC3 pkgC3 fsC3 fsXC3w ["foo-1.2"] (by decide) (by decide)
  exact h

/-- Claim C4, counterexample: when the first fetch of a package fails
(the transfer raises), no file is cached, so the second fetch of the
same URL/destination performs network I/O again — two transfers in
total — and is not a no-op success. -/
theorem C4_cex :
    (download_package envC4 pkgC4 (download_package envC4 pkgC4 fsC4).2).1 = false ∧
    (download_package envC4 pkgC4 (download_package envC4 pkgC4 fsC4).2).2.netOps =
      fsC4.netOps + 2 := by decide

/-- Claim C4, amended: if the file named by the URL's final path segment
already exists in the shared source directory, `download_package`
returns success immediately with the state (hence network-transfer
count) unchanged; and whenever a first call succeeds, the second call on
the resulting state is a no-op success, the two calls together having
performed at most one network transfer. -/
theorem C4_fetch_idempotent :
    ∀ (env : Env) (pkg : Package) (fs : FSState),
    (pathName pkg.url ∈ fs.sourceFiles → download_package env pkg fs = (true, fs)) ∧
    ((download_package env pkg fs).1 = true →
      download_package env pkg (download_package env pkg fs).2 =
        (true, (download_package env pkg fs).2) ∧
      (download_package env pkg fs).2.netOps ≤ fs.netOps + 1) := by
  intro env pkg fs
  constructor
  · intro hm
    simp only [download_package]
    rw [if_pos hm]
  · intro h1
    refine ⟨?_, download_package_netOps_le env pkg fs⟩
    by_cases hm : pathName pkg.url ∈ fs.sourceFiles
    · have he : download_package env pkg fs = (true, fs) := by
        simp only [download_package]; rw [if_pos hm]
      rw [he]
      simp only [download_package]
      rw [if_pos hm]
    · have he : download_package env pkg fs =
          download_file env pkg.url (pathName pkg.url) pkg.hash fs := by
        simp only [download_package]; rw [if_neg hm]
      rw [he] at h1 ⊢
      have hmem := download_file_success_mem h1
      simp only [download_package]
      rw [if_pos hmem]

/-- Witness for C4: a cached file is skipped unchanged, and after one
successful download the repeat call is a no-op success. -/
theorem C4_witness :
    (download_package envC4w pkgC4w fsC4w = (true, fsC4w)) ∧
    download_package envC4w pkgC4w (download_package envC4w pkgC4w fsC4).2 =
      (true, (download_package envC4w pkgC4w fsC4).2) ∧
    (download_package envC4w pkgC4w fsC4).2.netOps ≤ fsC4.netOps + 1 :=
  ⟨(C4_fetch_idempotent envC4w pkgC4w fsC4w).1 (by decide),
   (C4_fetch_idempotent envC4w pkgC4w fsC4).2 (by decide)⟩

/-- Claim C5 (confirmed): with an expected hash supplied, a digest
mismatch makes `download_file` delete the downloaded destination file
and report failure; a digest match reports success with the file in
place; and a raising transfer is converted into a failure result (the
model is a total function — no exception escapes). -/
theorem C5_download_verification :
    ∀ (env : Env) (url dest hx c : String) (eh : Option String) (fs : FSState),
    (env.net url = some c → env.md5 c ≠ hx →
      (download_file env url dest (some hx) fs).1 = false ∧
      dest ∉ (download_file env url dest (some hx) fs).2.sourceFiles) ∧
    (env.net url = some c → env.md5 c = hx →
      (download_file env url dest (some hx) fs).1 = true ∧
      dest ∈ (download_file env url dest (some hx) fs).2.sourceFiles) ∧
    (env.net url = none → (download_file env url dest eh fs).1 = false) := by
  intro env url dest hx c eh fs
  refine ⟨?_, ?_, ?_⟩
  · intro hn hh
    simp only [download_file]
    rw [hn]
    dsimp only
    rw [if_neg hh]
    exact ⟨rfl, by simp⟩
  · intro hn hh
    simp only [download_file]
    rw [hn]
    dsimp only
    rw [if_pos hh]
    refine ⟨rfl, ?_⟩
    by_cases hm : dest ∈ fs.sourceFiles <;> simp [hm]
  · intro hn
    simp only [download_file]
    rw [hn]

/-- Witness for C5: concrete mismatching, matching and raising
downloads. -/
theorem C5_witness :
    ((download_file envC5 "u" "f" (some "d2") fsC4).1 = false ∧
      "f" ∉ (download_file envC5 "u" "f" (some "d2") fsC4).2.sourceFiles) ∧
    ((download_file envC5 "u" "f" (some "d1") fsC4).1 = true ∧
      "f" ∈ (download_file envC5 "u" "f" (some "d1") fsC4).2.sourceFiles) ∧
    (download_file envC5n "u" "f" none fsC4).1 = false :=
  ⟨(C5_download_verification envC5 "u" "f" "d2" "data" none fsC4).1 rfl (by decide),
   (C5_download_verification envC5 "u" "f" "d1" "data" none fsC4).2.1 rfl rfl,
   (C5_download_verification envC5n "u" "f" "d1" "data" none fsC4).2.2 rfl⟩

/-- Claim C6 (confirmed): `locateDir` equals the spec's selection
(name-and-version substring match first, package-name-start fallback
second); the three example selections hold; and when location finds
nothing the package build reports failure. -/
theorem C6_tree_location :
    (∀ (dirs : List String) (n v : String), locateDir dirs n v = locateSpec dirs n v) ∧
    locateDir ["foo-1.2", "foo-extra"] "foo" "1.2" = some "foo-1.2" ∧
    locateDir ["foo-extra"] "foo" "1.2" = some "foo-extra" ∧
    locateDir ["bar-1.0"] "foo" "1.2" = none ∧
    (∀ (env : Env) (pkg : Package) (fs fsX : FSState),
      (bpDownload env pkg (logBuilt pkg fs)).1 = true →
      bpExtract env pkg (bpFreshen pkg (bpDownload env pkg (logBuilt pkg fs)).2) = some fsX →
      locateDir fsX.sourceDirs pkg.name pkg.version = none →
      build_package env pkg fs = (false, fsX)) := by
  refine ⟨locateDir_eq_locateSpec, by decide, by decide, by decide, ?_⟩
  intro env pkg fs fsX h1 h2 h3
  simp only [build_package]
  rw [if_pos h1, h2]
  dsimp only
  rw [h3]

/-- Witness for C6: a concrete build whose extraction yields no
matching directory fails at tree location. -/
theorem C6_witness : build_package envC6 pkgC6 fsC6 = (false, fsXC6) :=
  C6_tree_location.2.2.2.2 envC6 pkgC6 fsC6 fsXC6 (by decide) (by decide) (by decide)

/-- Claim C7, counterexample: an entry whose `build_commands` key is
present but EMPTY is not treated as metadata-only — it is handed to
`build_package` (its name enters `builtLog`) and its failure (here a
failing extraction) makes the toolchain phase fail. -/
theorem C7_cex :
    pkgC7.build_commands = some [] ∧
    "meta" ∈ (build_toolchain envC7 (some [pkgC7]) fsC7).2.1.builtLog ∧
    (build_toolchain envC7 (some [pkgC7]) fsC7).1 = false := by decide

/-- Claim C7, amended: only entries whose `build_commands` KEY IS ABSENT
are metadata-only: such an entry is skipped by the build loop, leaving
the outcome and state exactly those of the remaining entries; an entry
with the key present (even with an empty list) is handed to the Package
Builder — its name is recorded in `builtLog` right after the preceding
state. -/
theorem C7_metadata_entries :
    ∀ (env : Env) (p : Package) (ps : List Package) (fs : FSState),
    (p.build_commands = none →
      buildLoop env (p :: ps) fs =
        ((buildLoop env ps fs).1, (buildLoop env ps fs).2.1, p :: (buildLoop env ps fs).2.2)) ∧
    (∀ bc, p.build_commands = some bc →
      ∃ t, (buildLoop env (p :: ps) fs).2.1.builtLog = fs.builtLog ++ p.name :: t) := by
  intro env p ps fs
  constructor
  · intro h
    simp only [buildLoop]
    rw [h]
  · intro bc h
    simp only [buildLoop]
    rw [h]
    dsimp only
    by_cases hb : (build_package env (tcPrep p) fs).1
    · rw [if_pos hb]
      obtain ⟨t, ht⟩ := buildLoop_builtLog_mono env ps (build_package env (tcPrep p) fs).2
      refine ⟨t, ?_⟩
      rw [ht, build_package_builtLog]
      simp [tcPrep]
    · rw [if_neg hb]
      refine ⟨[], ?_⟩
      rw [build_package_builtLog]
      simp [tcPrep]

/-- Witness for C7: a keyless entry is skipped unchanged; a
key-present entry's name enters `builtLog`. -/
theorem C7_witness :
    buildLoop envC7 ([pkgC7n]) fsC7 =
      ((buildLoop envC7 [] fsC7).1, (buildLoop envC7 [] fsC7).2.1,
        pkgC7n :: (buildLoop envC7 [] fsC7).2.2) ∧
    ∃ t, (buildLoop envC7 (pkgC7 :: []) fsC7).2.1.builtLog = fsC7.builtLog ++ "meta" :: t :=
  ⟨(C7_metadata_entries envC7 pkgC7n [] fsC7).1 rfl,
   (C7_metadata_entries envC7 pkgC7 [] fsC7).2 [] rfl⟩

/-- Claim C8 (confirmed): when the toolchain phase fails, the top-level
`build` reports failure and the system-packages phase is never entered
(`sysPhaseStarted` stays false); moreover inside the toolchain build
loop a failing package build aborts immediately — the loop's outcome is
`false` and its final state is exactly the state right after the
failing package's build, independent of all later entries. -/
theorem C8_toolchain_failure_is_fatal :
    ∀ (env : Env) (cfg : Config) (fs : FSState),
    fs.sysPhaseStarted = false →
    (build_toolchain env cfg.toolchain_packages fs).1 = false →
    ((build env cfg fs).1 = false ∧
     (build env cfg fs).2.sysPhaseStarted = false ∧
     ∀ (pre : List Package) (p : Package) (ps : List Package) (fs' : FSState)
       (bc : List String),
       (buildLoop env pre fs').1 = true →
       p.build_commands = some bc →
       (build_package env (tcPrep p) (buildLoop env pre fs').2.1).1 = false →
       (buildLoop env (pre ++ p :: ps) fs').1 = false ∧
       (buildLoop env (pre ++ p :: ps) fs').2.1 =
         (build_package env (tcPrep p) (buildLoop env pre fs').2.1).2) := by
  intro env cfg fs h0 hf
  have hb : build env cfg fs = (false, (build_toolchain env cfg.toolchain_packages fs).2.1) := by
    simp only [build]
    rw [if_neg (by simp [hf])]
  refine ⟨by rw [hb], ?_, ?_⟩
  · rw [hb]
    dsimp only
    rw [build_toolchain_sys]
    exact h0
  · intro pre p ps fs' bc hpre hbc hfail
    rw [buildLoop_append]
    rw [if_pos hpre]
    simp only [buildLoop]
    rw [hbc]
    dsimp only
    rw [if_neg (by simp [hfail])]
    exact ⟨rfl, rfl⟩

/-- Witness for C8: a concrete run whose only toolchain package fails
to build; the whole run fails, the system phase never starts, and the
loop stops at the failing package. -/
theorem C8_witness :
    ((build envC8 cfgC8 fsC8).1 = false ∧
      (build envC8 cfgC8 fsC8).2.sysPhaseStarted = false) ∧
    (buildLoop envC8 ([] ++ pkgC8 :: []) fsC8).1 = false ∧
    (buildLoop envC8 ([] ++ pkgC8 :: []) fsC8).2.1 =
      (build_package envC8 (tcPrep pkgC8) (buildLoop envC8 [] fsC8).2.1).2 := by
  have h := C8_toolchain_failure_is_fatal envC8 cfgC8 fsC8 rfl (by decide)
  exact ⟨⟨h.1, h.2.1⟩, h.2.2 [] pkgC8 [] fsC8 ["x"] (by decide) rfl (by decide)⟩

/-- Claim C9 (confirmed): with an empty or absent toolchain package
list, `build_toolchain` returns failure leaving the state untouched (no
fetch, no package build), and the top-level `build` reports failure for
the whole run. -/
theorem C9_empty_toolchain_fails :
    ∀ (env : Env) (cfg : Config) (fs : FSState),
    cfg.toolchain_packages = none ∨ cfg.toolchain_packages = some [] →
    build_toolchain env cfg.toolchain_packages fs = (false, fs, []) ∧
    build env cfg fs = (false, fs) := by
  intro env cfg fs h
  have he : cfg.toolchain_packages.getD [] = [] := by
    rcases h with h | h <;> rw [h] <;> rfl
  have hbt : build_toolchain env cfg.toolchain_packages fs = (false, fs, []) := by
    simp only [build_toolchain]
    rw [he]
    rfl
  refine ⟨hbt, ?_⟩
  simp only [build]
  rw [hbt]
  rfl

/-- Witness for C9 at a configuration with no toolchain list. -/
theorem C9_witness :
    build_toolchain envC8 cfgC9.toolchain_packages fsC8 = (false, fsC8, []) ∧
    build envC8 cfgC9 fsC8 = (false, fsC8) :=
  C9_empty_toolchain_fails envC8 cfgC9 fsC8 (Or.inl rfl)

/-- Claim C10 (confirmed): the toolchain pre-fetch verifies against the
`hash` field while `build_package`'s on-demand fetch passes the `md5`
field; so for a package declaring its digest only under `hash`, with the
archive absent from the cache, `build_package`'s fetch succeeds with no
verification at all (even though the downloaded bytes' digest differs
from the declared hash), while `download_package` on the same input
rejects the download. -/
theorem C10_fetch_paths_verify_different_keys :
    ∀ (env : Env) (pkg : Package) (fs : FSState) (c hdecl : String),
    pkg.hash = some hdecl → pkg.md5 = none →
    env.net pkg.url = some c → env.md5 c ≠ hdecl →
    splitLast pkg.url ∉ fs.sourceFiles → pathName pkg.url ∉ fs.sourceFiles →
    (bpDownload env pkg fs).1 = true ∧ (download_package env pkg fs).1 = false := by
  intro env pkg fs c hdecl hh hm5 hn hne hs hp
  constructor
  · simp only [bpDownload]
    rw [if_neg hs, hm5]
    simp only [download_file]
    rw [hn]
  · simp only [download_package]
    rw [if_neg hp, hh]
    simp only [download_file]
    rw [hn]
    dsimp only
    rw [if_neg hne]

/-- Witness for C10 at a concrete hash-only package. -/
theorem C10_witness :
    (bpDownload envC10 pkgC10 fsC4).1 = true ∧
    (download_package envC10 pkgC10 fsC4).1 = false :=
  C10_fetch_paths_verify_different_keys envC10 pkgC10 fsC4 "bytes" "right"
    rfl rfl rfl (by decide) (by decide) (by decide)

end Windfall
